import Mathlib

/-!
Verification of the walk-forward metrics engine, probability blender,
schedule projector and season Monte-Carlo simulator of the
`mikeisstrong/mcas-food-app` repository (NBA prediction core).

Shallow embedding conventions:
* dates are day numbers (`ℤ`); subtracting two dates is the Python
  `(d1 - d2).days` value;
* Python `float` arithmetic that stays in the rationals is modelled by `ℚ`;
  the ELO formulas use `10 ** x` with a real exponent, modelled by `ℝ`
  and `Real.rpow`;
* the SQLAlchemy session is modelled by the two tables it serves:
  a `List Game` (the `games` table) and a `List TeamGameStats`
  (the `team_game_stats` table);
* Python code that raises (`ZeroDivisionError`) is modelled with `Except`.
-/

namespace NbaCore

/-- Row of the `games` table (`src/nba_2x2x2/data/models.py`).  `game_date`
is a day number; `id` is the strict tie-break ordinal of the spec. -/
structure Game where
  id : ℕ
  game_date : ℤ
  home_team_id : ℕ
  away_team_id : ℕ
  home_team_score : ℤ
  away_team_score : ℤ
  status : String
deriving DecidableEq

/-- Row of the `team_game_stats` table: the per-(game, team) snapshot written
by `MetricsCalculator._calculate_team_stats` (metrics.py lines 183-210). -/
structure TeamGameStats where
  game_id : ℕ
  team_id : ℕ
  is_home : ℕ
  games_played : ℕ
  wins : ℕ
  losses : ℕ
  win_pct : ℚ
  points_for : ℚ
  points_against : ℚ
  point_differential : ℚ
  ppf_5game : Option ℚ
  ppa_5game : Option ℚ
  diff_5game : Option ℚ
  ppf_10game : Option ℚ
  ppa_10game : Option ℚ
  diff_10game : Option ℚ
  ppf_20game : Option ℚ
  ppa_20game : Option ℚ
  diff_20game : Option ℚ
  ppf_100game : Option ℚ
  ppa_100game : Option ℚ
  diff_100game : Option ℚ
  elo_rating : ℝ
  days_rest : Option ℤ
  back_to_back : ℕ
  game_won : ℕ

/-- `MetricsCalculator.ELO_K` (metrics.py line 18). -/
def ELO_K : ℝ := 32

/-- `MetricsCalculator.ELO_INITIAL` (metrics.py line 19). -/
def ELO_INITIAL : ℝ := 1500.0

/-- The WHERE clause shared by `_get_prev_games`, `_calculate_rest_days` and
`_is_back_to_back` (metrics.py lines 221-228, 256-260, 275-279):
the game involves the team, its `game_date` is strictly earlier than the
given date, and its status is `"Final"`.  Note the comparison is on the
date alone; the `id` ordinal does not appear. -/
def prior_games_pred (team_id : ℕ) (game_date : ℤ) (g : Game) : Bool :=
  (g.home_team_id == team_id || g.away_team_id == team_id)
    && decide (g.game_date < game_date) && (g.status == "Final")

/-- One row of the list built by `_get_prev_games` (metrics.py lines 240-248). -/
structure PrevGame where
  game_id : ℕ
  pf : ℤ
  pa : ℤ
  won : ℕ
  elo : ℝ

/-- `MetricsCalculator._get_prev_games` (metrics.py lines 212-250): all Final
games involving the team dated strictly before `game_date`, in ledger order
(the ledger is kept sorted by `(game_date, id)`, on which the query's
`ORDER BY game_date` is the identity), each with points for/against, the
outcome, and the stored post-game rating joined from `team_game_stats`
(initial rating when the outer join finds no snapshot). -/
def get_prev_games (stats : List TeamGameStats) (games : List Game)
    (team_id : ℕ) (game_date : ℤ) : List PrevGame :=
  (games.filter (prior_games_pred team_id game_date)).map fun g =>
    let is_home := g.home_team_id == team_id
    let pf := if is_home then g.home_team_score else g.away_team_score
    let pa := if is_home then g.away_team_score else g.home_team_score
    let won : ℕ := if pf > pa then 1 else 0
    let joined := stats.find? fun s => s.game_id == g.id && s.team_id == team_id
    { game_id := g.id, pf := pf, pa := pa, won := won,
      elo := match joined with
             | some s => s.elo_rating
             | none => ELO_INITIAL }

/-- Date of the team's most recent prior Final game: the `ORDER BY
game_date DESC ... first()` lookup shared by `_calculate_rest_days`
(metrics.py lines 254-263) and `_is_back_to_back` (lines 273-282).
Only the date of the first row is consumed, so the result is the maximal
prior date (ties all carry the same date). -/
def latest_prev_date (games : List Game) (team_id : ℕ) (game_date : ℤ) :
    Option ℤ :=
  ((games.filter (prior_games_pred team_id game_date)).map
    (fun g => g.game_date)).max?

/-- `MetricsCalculator._calculate_rest_days` (metrics.py lines 252-269):
`None` when the team has no prior Final game, otherwise the day difference
to the most recent one. -/
def calculate_rest_days (games : List Game) (team_id : ℕ) (game_date : ℤ) :
    Option ℤ :=
  match latest_prev_date games team_id game_date with
  | none => none
  | some prev_date => some (game_date - prev_date)

/-- `MetricsCalculator._is_back_to_back` (metrics.py lines 271-288):
`False` when the team has no prior Final game, otherwise whether the most
recent one is exactly 1 day earlier. -/
def is_back_to_back (games : List Game) (team_id : ℕ) (game_date : ℤ) :
    Bool :=
  match latest_prev_date games team_id game_date with
  | none => false
  | some prev_date => game_date - prev_date == 1

/-- The row filter of `_get_latest_elo` (metrics.py lines 292-301): a
snapshot row qualifies when it belongs to the team and its joined game is
dated strictly before `game_date`; a qualifying row contributes its joined
date and stored rating. -/
def elo_candidate (games : List Game) (team_id : ℕ) (game_date : ℤ)
    (s : TeamGameStats) : Option (ℤ × ℝ) :=
  match games.find? (fun g => g.id == s.game_id) with
  | some g =>
      if s.team_id == team_id && decide (g.game_date < game_date) then
        some (g.game_date, s.elo_rating)
      else none
  | none => none

/-- All qualifying rows of the `_get_latest_elo` query. -/
def elo_candidates (stats : List TeamGameStats) (games : List Game)
    (team_id : ℕ) (game_date : ℤ) : List (ℤ × ℝ) :=
  stats.filterMap (elo_candidate games team_id game_date)

/-- `MetricsCalculator._get_latest_elo` (metrics.py lines 290-305): the
rating of the latest qualifying snapshot (`ORDER BY game_date DESC`,
first row kept on equal dates), or `ELO_INITIAL` when none exists. -/
def get_latest_elo (stats : List TeamGameStats) (games : List Game)
    (team_id : ℕ) (game_date : ℤ) : ℝ :=
  match (elo_candidates stats games team_id game_date).foldl
      (fun acc c =>
        match acc with
        | none => some c
        | some m => if c.1 > m.1 then some c else some m) none with
  | some m => m.2
  | none => ELO_INITIAL

/-- `MetricsCalculator._calculate_elo` (metrics.py lines 307-312). -/
noncomputable def calculate_elo (team_elo : ℝ) (opponent_elo : ℝ) (won : ℕ) : ℝ :=
  let expected_win_prob : ℝ :=
    1.0 / (1.0 + (10:ℝ) ^ ((opponent_elo - team_elo) / 400.0))
  let actual_score : ℝ := won
  let elo_change := ELO_K * (actual_score - expected_win_prob)
  team_elo + elo_change

/-- `MetricsCalculator._rolling_average` (metrics.py lines 314-319). -/
def rolling_average (values : List ℤ) : Option ℚ :=
  if values = [] then none
  else some ((values.sum : ℚ) / (values.length : ℚ))

/-- Python `values[-n:]`: the last at most `n` elements. -/
def last_n (n : ℕ) (values : List ℤ) : List ℤ :=
  values.drop (values.length - n)

/-- `MetricsCalculator._calculate_team_stats` (metrics.py lines 124-210).
Display rounding is absent in the source; averages over zero prior games
fall back to `0.0` / `None` exactly as in the source. -/
noncomputable def calculate_team_stats (game_id : ℕ) (team_id : ℕ) (is_home : ℕ)
    (prev_games : List PrevGame) (game_won : ℕ) (days_rest : Option ℤ)
    (back_to_back : ℕ) (opponent_id : ℕ) (game_date : ℤ)
    (stats : List TeamGameStats) (games : List Game) : TeamGameStats :=
  let opponent_elo := get_latest_elo stats games opponent_id game_date
  let games_played := prev_games.length
  let wins := (prev_games.filter fun g => g.won != 0).length
  let losses := games_played - wins
  let win_pct : ℚ :=
    if games_played > 0 then (wins : ℚ) / (games_played : ℚ) else 0
  let total_pf := (prev_games.map fun g => g.pf).sum
  let total_pa := (prev_games.map fun g => g.pa).sum
  let ppf : ℚ :=
    if games_played > 0 then (total_pf : ℚ) / (games_played : ℚ) else 0
  let ppa : ℚ :=
    if games_played > 0 then (total_pa : ℚ) / (games_played : ℚ) else 0
  let point_diff := ppf - ppa
  let ppf_5 := rolling_average (last_n 5 (prev_games.map fun g => g.pf))
  let ppa_5 := rolling_average (last_n 5 (prev_games.map fun g => g.pa))
  let diff_5 := match ppf_5, ppa_5 with
                | some a, some b => some (a - b)
                | _, _ => none
  let ppf_10 := rolling_average (last_n 10 (prev_games.map fun g => g.pf))
  let ppa_10 := rolling_average (last_n 10 (prev_games.map fun g => g.pa))
  let diff_10 := match ppf_10, ppa_10 with
                 | some a, some b => some (a - b)
                 | _, _ => none
  let ppf_20 := rolling_average (last_n 20 (prev_games.map fun g => g.pf))
  let ppa_20 := rolling_average (last_n 20 (prev_games.map fun g => g.pa))
  let diff_20 := match ppf_20, ppa_20 with
                 | some a, some b => some (a - b)
                 | _, _ => none
  let ppf_100 := rolling_average (last_n 100 (prev_games.map fun g => g.pf))
  let ppa_100 := rolling_average (last_n 100 (prev_games.map fun g => g.pa))
  let diff_100 := match ppf_100, ppa_100 with
                  | some a, some b => some (a - b)
                  | _, _ => none
  let team_elo := get_latest_elo stats games team_id game_date
  let post_game_elo := calculate_elo team_elo opponent_elo game_won
  { game_id := game_id, team_id := team_id, is_home := is_home,
    games_played := games_played, wins := wins, losses := losses,
    win_pct := win_pct, points_for := ppf, points_against := ppa,
    point_differential := point_diff,
    ppf_5game := ppf_5, ppa_5game := ppa_5, diff_5game := diff_5,
    ppf_10game := ppf_10, ppa_10game := ppa_10, diff_10game := diff_10,
    ppf_20game := ppf_20, ppa_20game := ppa_20, diff_20game := diff_20,
    ppf_100game := ppf_100, ppa_100game := ppa_100, diff_100game := diff_100,
    elo_rating := post_game_elo, days_rest := days_rest,
    back_to_back := back_to_back, game_won := game_won }

/-- The snapshot `MetricsCalculator._calculate_game_metrics`
(metrics.py lines 48-93) builds for one side of a game: the prior-game
set, rest days and back-to-back flag are computed first, then passed to
`_calculate_team_stats` together with the game outcome. -/
noncomputable def game_team_stats (stats : List TeamGameStats) (games : List Game)
    (g : Game) (is_home : Bool) : TeamGameStats :=
  let team_id := if is_home then g.home_team_id else g.away_team_id
  let opponent_id := if is_home then g.away_team_id else g.home_team_id
  let prev_games := get_prev_games stats games team_id g.game_date
  let home_won := g.home_team_score > g.away_team_score
  let team_won : Bool := if is_home then home_won else !(decide home_won)
  let days_rest := calculate_rest_days games team_id g.game_date
  let b2b := is_back_to_back games team_id g.game_date
  calculate_team_stats g.id team_id (if is_home then 1 else 0) prev_games
    (if team_won then 1 else 0) days_rest (if b2b then 1 else 0)
    opponent_id g.game_date stats games

/-- Create-or-update of one snapshot row (metrics.py lines 95-121): an
existing `(game_id, team_id)` row is overwritten field by field, otherwise
the new row is appended. -/
def upsert_stats (stats : List TeamGameStats) (s : TeamGameStats) :
    List TeamGameStats :=
  if stats.any (fun t => t.game_id == s.game_id && t.team_id == s.team_id) then
    stats.map fun t =>
      if t.game_id == s.game_id && t.team_id == s.team_id then s else t
  else stats ++ [s]

/-- `MetricsCalculator._calculate_game_metrics` (metrics.py lines 48-122):
both teams' snapshots are computed from the pre-game store, then committed. -/
noncomputable def calculate_game_metrics (stats : List TeamGameStats) (games : List Game)
    (g : Game) : List TeamGameStats :=
  let home_stats := game_team_stats stats games g true
  let away_stats := game_team_stats stats games g false
  upsert_stats (upsert_stats stats home_stats) away_stats

/-- The ledger order of `calculate_all_metrics` (metrics.py line 33):
`ORDER BY game_date, id`. -/
def game_order (a b : Game) : Prop :=
  a.game_date < b.game_date ∨ (a.game_date = b.game_date ∧ a.id ≤ b.id)

instance : DecidableRel game_order := fun a b => by
  unfold game_order; infer_instance

/-- `MetricsCalculator.calculate_all_metrics` (metrics.py lines 25-46):
the Final games, sorted by `(game_date, id)`, are processed left to right
against an initially empty snapshot store. -/
noncomputable def calculate_all_metrics (games : List Game) : List TeamGameStats :=
  let finals := (games.filter fun g => g.status == "Final").insertionSort
    game_order
  finals.foldl (fun store g => calculate_game_metrics store games g) []

end NbaCore

namespace NbaCore

/-! ## Season Monte-Carlo simulator (`src/nba_2x2x2/ml/monte_carlo.py`)

Randomness is passed in explicitly: `draws sim_num k` is the value the
`random.random()` call number `k` of simulation `sim_num` returns
(a rational in `[0,1)`); skipped games consume no draw, as in the source. -/

/-- One entry of `remaining_games` (monte_carlo.py lines 50-56). -/
structure McGame where
  home_team_id : ℕ
  away_team_id : ℕ
  home_win_prob : ℚ
deriving DecidableEq

/-- `SimulationResult` (monte_carlo.py lines 22-30).  `std_dev` is the only
irrational field (a square root). -/
structure SimulationResult where
  mean_wins : ℚ
  median_wins : ℤ
  std_dev : ℝ
  percentile_10 : ℤ
  percentile_90 : ℤ
  distribution : List ℤ

/-- The home/away orientation step (monte_carlo.py lines 81-94): the
team-oriented win probability, or `none` when the game does not involve the
given team and is skipped. -/
def team_win_prob (team_id : Option ℕ) (g : McGame) : Option ℚ :=
  match team_id with
  | some t =>
      if g.home_team_id == t then some g.home_win_prob
      else if g.away_team_id == t then some (1 - g.home_win_prob)
      else none
  | none => some g.home_win_prob

/-- Whether a remaining game involves the simulated team (all games when
`team_id` is `None`); exactly the games on which `team_win_prob` is `some`. -/
def mc_involves (team_id : Option ℕ) (g : McGame) : Bool :=
  match team_id with
  | some t => g.home_team_id == t || g.away_team_id == t
  | none => true

/-- The momentum adjustment (monte_carlo.py lines 96-110): with at least 5
recorded recent outcomes, +0.02 after 4 or 5 wins in the last 5, -0.02 after
0 or 1 wins, else 0; 0 with fewer than 5 recorded outcomes. -/
def momentum_boost (recent_results : List ℕ) : ℚ :=
  if recent_results.length ≥ 5 then
    let recent_5_wins := (recent_results.drop (recent_results.length - 5)).sum
    if recent_5_wins ≥ 4 then 0.02
    else if recent_5_wins ≤ 1 then -0.02
    else 0
  else 0

/-- Sliding-window update (monte_carlo.py lines 118-127): append the
outcome, keep only the last 5. -/
def push_recent (recent_results : List ℕ) (outcome : ℕ) : List ℕ :=
  let r := recent_results ++ [outcome]
  if r.length > 5 then r.drop (r.length - 5) else r

/-- The per-simulation loop over the remaining games (monte_carlo.py lines
76-127): `k` counts the `random.random()` calls made so far in this
simulation, `wins`/`losses` and `recent_results` are the loop state; the
final win total is returned (line 129). -/
def sim_games (team_id : Option ℕ) (draw : ℕ → ℚ) :
    List McGame → ℕ → ℤ → ℤ → List ℕ → ℤ
  | [], _, wins, _, _ => wins
  | g :: rest, k, wins, losses, recent_results =>
      match team_win_prob team_id g with
      | none => sim_games team_id draw rest k wins losses recent_results
      | some p =>
          let adjusted_prob := max 0.05 (min 0.95 (p + momentum_boost recent_results))
          if draw k < adjusted_prob then
            sim_games team_id draw rest (k + 1) (wins + 1) losses
              (push_recent recent_results 1)
          else
            sim_games team_id draw rest (k + 1) wins (losses + 1)
              (push_recent recent_results 0)

/-- The collected `simulated_final_wins` before sorting (monte_carlo.py
lines 63-129): one final win total per simulation, starting each run from
the current record with an empty window. -/
def mc_samples (current_wins : ℤ) (current_losses : ℤ)
    (remaining_games : List McGame) (num_simulations : ℤ)
    (team_id : Option ℕ) (draws : ℕ → ℕ → ℚ) : List ℤ :=
  (List.range num_simulations.toNat).map fun sim_num =>
    sim_games team_id (draws sim_num) remaining_games 0
      current_wins current_losses []

/-- The statistics block of `run_monte_carlo_simulation` (monte_carlo.py
lines 131-153), applied to the sorted win totals.  The percentile indices
`int(N * 0.10)` and `int(N * 0.90)` equal `N / 10` and `9 * N / 10` in
natural-number division for every feasible `N` (the double products of
`0.1` and `0.9` round within the truncated unit). -/
noncomputable def mc_result (simulated_final_wins : List ℤ) :
    SimulationResult :=
  let n := simulated_final_wins.length
  let mean_wins : ℚ := (simulated_final_wins.sum : ℚ) / (n : ℚ)
  let median_wins := simulated_final_wins.getD (n / 2) 0
  let variance : ℚ :=
    ((simulated_final_wins.map fun w => ((w : ℚ) - mean_wins) ^ 2).sum) / (n : ℚ)
  let std_dev : ℝ := Real.sqrt (variance : ℝ)
  let p10_idx := n / 10
  let p90_idx := 9 * n / 10
  { mean_wins := mean_wins, median_wins := median_wins,
    std_dev := std_dev,
    percentile_10 := simulated_final_wins.getD p10_idx 0,
    percentile_90 := simulated_final_wins.getD p90_idx 0,
    distribution := simulated_final_wins }

/-- `run_monte_carlo_simulation` (monte_carlo.py lines 33-153).  The
statistics block divides by `len(simulated_final_wins)`, which in Python
raises `ZeroDivisionError` when no simulation ran; that exception is the
`Except.error` branch. -/
noncomputable def run_monte_carlo_simulation (current_wins : ℤ)
    (current_losses : ℤ) (remaining_games : List McGame)
    (num_simulations : ℤ) (team_id : Option ℕ) (draws : ℕ → ℕ → ℚ) :
    Except String SimulationResult :=
  let simulated_final_wins :=
    (mc_samples current_wins current_losses remaining_games num_simulations
      team_id draws).insertionSort (· ≤ ·)
  if simulated_final_wins.length = 0 then
    Except.error "ZeroDivisionError: division by zero"
  else
    Except.ok (mc_result simulated_final_wins)

/-! ## Season projections (`scripts/calculate_season_projections.py`) -/

/-- One joined row of the remaining-games query (projections script lines
103-114): the game's sides and the outer-joined prediction columns
(`None` when no `GamePrediction` row exists). -/
structure RemainingGame where
  home_win_prob : Option ℚ
  elo_home_prob : Option ℚ
  home_team_id : ℕ
  away_team_id : ℕ
  game_id : ℕ
deriving DecidableEq

/-- The quantities a projection row carries for one team (projections
script lines 120-201); display rounding (`round(x, k)`) is not modelled,
the raw computed values are kept. -/
structure TeamProjection where
  current_wins : ℤ
  current_losses : ℤ
  remaining_count : ℕ
  projected_remaining_wins : ℚ
  projected_total_wins : ℚ
  projected_total_losses : ℚ
  schedule_adjustment : ℚ

/-- The loop body of the projections script (lines 126-157): a row without
a prediction, or with a falsy (zero) `home_win_prob`, is skipped; otherwise
the team-oriented probability is added to the expected-wins sum and the
opponent's probability to the strength sum. -/
def projection_step (team_id : ℕ) (acc : ℚ × ℚ) (g : RemainingGame) :
    ℚ × ℚ :=
  match g.home_win_prob with
  | none => acc
  | some home_win_prob =>
      if home_win_prob = 0 then acc
      else
        let prob := if g.home_team_id == team_id then home_win_prob
                    else 1 - home_win_prob
        let opponent_win_prob := if g.home_team_id == team_id
                                 then 1 - home_win_prob
                                 else home_win_prob
        (acc.1 + prob, acc.2 + opponent_win_prob)

/-- The per-team body of `calculate_season_projections` (projections script
lines 116-201): probability summation over the remaining slate, the
strength-of-schedule adjustment (lines 159-168), and the projected final
record (lines 170-175). -/
def project_team (wins : ℤ) (losses : ℤ)
    (remaining_games : List RemainingGame) (team_id : ℕ) : TeamProjection :=
  let remaining_count := remaining_games.length
  let sums := remaining_games.foldl (projection_step team_id) (0, 0)
  let projected_remaining_wins0 := sums.1
  let remaining_strength_sum := sums.2
  let adj :=
    if remaining_count > 0 then
      let remaining_avg_opponent_strength :=
        remaining_strength_sum / (remaining_count : ℚ)
      if remaining_avg_opponent_strength > 0 then
        0.5 / remaining_avg_opponent_strength
      else 1
    else 1
  let projected_remaining_wins :=
    if remaining_count > 0 then projected_remaining_wins0 * adj
    else projected_remaining_wins0
  let projected_total_wins := (wins : ℚ) + projected_remaining_wins
  { current_wins := wins, current_losses := losses,
    remaining_count := remaining_count,
    projected_remaining_wins := projected_remaining_wins,
    projected_total_wins := projected_total_wins,
    projected_total_losses := 82 - projected_total_wins,
    schedule_adjustment := adj }

/-! ## Prediction blending (`scripts/generate_game_predictions.py`) -/

/-- `get_elo_win_probability` (predictions script lines 211-217). -/
noncomputable def get_elo_win_probability (home_elo : ℝ) (away_elo : ℝ) : ℝ :=
  1.0 / (1.0 + (10:ℝ) ^ ((away_elo - home_elo) / 400.0))

/-- The LightGBM component with its fallback (predictions script lines
300-306): the model output when the game index is inside the trained
horizon, a neutral 0.5 otherwise. -/
def lightgbm_prob_for (lightgbm_probs : List ℝ) (idx : ℕ) : ℝ :=
  if idx < lightgbm_probs.length then lightgbm_probs.getD idx 0 else 0.5

/-- The blend (predictions script line 318): 70% LightGBM + 30% ELO. -/
noncomputable def blended_home_prob (lgb_home_prob : ℝ) (elo_home_prob : ℝ) : ℝ :=
  0.70 * lgb_home_prob + 0.30 * elo_home_prob

/-- The stored `home_win_prob` (predictions script line 330):
the blend clamped to `[0, 1]`. -/
noncomputable def stored_home_win_prob (lgb_home_prob : ℝ) (elo_home_prob : ℝ) : ℝ :=
  max 0.0 (min 1.0 (blended_home_prob lgb_home_prob elo_home_prob))

end NbaCore

namespace NbaCore

/-! ## Spec-side definitions (refinement counterparts, written from the
words of the specification, to be compared with the code-derived
definitions above) -/

/-- Spec, Invariant I1: the games ordered strictly before a target game
under the total order (date, then ordinal) — the set the specification
says feeds every pre-game field, restricted to Final games involving the
team. -/
def prior_games_lex (games : List Game) (team_id : ℕ) (game_date : ℤ)
    (ordinal : ℕ) : List Game :=
  games.filter fun g =>
    (g.home_team_id == team_id || g.away_team_id == team_id)
      && (g.status == "Final")
      && (decide (g.game_date < game_date)
          || (decide (g.game_date = game_date) && decide (g.id < ordinal)))

/-- The snapshot with its post-game rating and stored outcome erased: the
fields Invariant I1 constrains. -/
def prior_fields (s : TeamGameStats) : TeamGameStats :=
  { s with elo_rating := 0, game_won := 0 }

/-- Spec, §4.1 pinned rating update:
new_rating = team_rating + K * (actual - 1 / (1 + 10^((opp - team)/400)))
with K = 32. -/
noncomputable def elo_update_spec (team_rating : ℝ) (opponent_rating : ℝ)
    (actual_result : ℕ) : ℝ :=
  team_rating + 32 *
    ((actual_result : ℝ) -
      1 / (1 + (10:ℝ) ^ ((opponent_rating - team_rating) / 400)))

/-- Spec, §4.4: the arithmetic mean of the win totals. -/
def spec_mean (l : List ℤ) : ℚ := (l.sum : ℚ) / (l.length : ℚ)

/-- Spec, §4.4: the element at sorted index N/2, integer division. -/
def spec_median (l : List ℤ) : ℤ := l.getD (l.length / 2) 0

/-- Spec, §4.4: the population standard deviation (divide by N, not N-1). -/
noncomputable def spec_std_dev (l : List ℤ) : ℝ :=
  Real.sqrt ((((l.map fun w => ((w : ℚ) - spec_mean l) ^ 2).sum) /
    (l.length : ℚ) : ℚ) : ℝ)

/-- Spec, §4.4: the nearest-rank index ⌊N * 0.10⌋. -/
def spec_p10_index (n : ℕ) : ℕ := ⌊(n : ℚ) * 0.10⌋₊

/-- Spec, §4.4: the nearest-rank index ⌊N * 0.90⌋. -/
def spec_p90_index (n : ℕ) : ℕ := ⌊(n : ℚ) * 0.90⌋₊

/-- Spec, §4.3: the mean over the remaining games of the opponent's
implied win probability (home games contribute `1 - p`, away games `p`,
where `p` is the game's home win probability). -/
def avg_opponent_strength_spec (remaining_games : List RemainingGame)
    (team_id : ℕ) : ℚ :=
  ((remaining_games.map fun g =>
      if g.home_team_id == team_id then 1 - g.home_win_prob.getD 0
      else g.home_win_prob.getD 0).sum) / (remaining_games.length : ℚ)

/-- Spec, §4.2: blended = w1 * externalProb + w2 * ratingProb, clamped
to [0, 1]. -/
noncomputable def blend_spec (w1 : ℝ) (w2 : ℝ) (external_prob : ℝ)
    (rating_prob : ℝ) : ℝ :=
  max 0 (min 1 (w1 * external_prob + w2 * rating_prob))

/-! ## Helper lemmas -/

/-- `10 ^ x` is positive. -/
lemma ten_rpow_pos (x : ℝ) : (0:ℝ) < (10:ℝ) ^ x :=
  Real.rpow_pos_of_pos (by norm_num) x

/-- The logistic expectation lies strictly between 0 and 1. -/
lemma expected_prob_bounds (x : ℝ) :
    0 < 1 / (1 + (10:ℝ) ^ x) ∧ 1 / (1 + (10:ℝ) ^ x) < 1 := by
  have hy := ten_rpow_pos x
  constructor
  · positivity
  · rw [div_lt_one (by linarith)]
    linarith

/-! ## Claim C8 -/

/-- Claim C8: for every pair of ratings A and B the rating-implied
probabilities are symmetric — `ratingProb(A,B) + ratingProb(B,A) = 1`
exactly, hence within the claimed 1e-9 tolerance — and two teams both at
rating 1500 give `ratingProb = 0.5` exactly. -/
theorem c8_rating_prob_symmetry :
    (∀ a b : ℝ, get_elo_win_probability a b + get_elo_win_probability b a = 1
      ∧ |get_elo_win_probability a b + get_elo_win_probability b a - 1|
          ≤ 1 / 1000000000)
    ∧ get_elo_win_probability 1500 1500 = 1 / 2 := by
  have key : ∀ a b : ℝ,
      get_elo_win_probability a b + get_elo_win_probability b a = 1 := by
    intro a b
    unfold get_elo_win_probability
    have hy := ten_rpow_pos ((a - b) / 400.0)
    have hneg : (b - a) / (400.0 : ℝ) = -((a - b) / 400.0) := by ring
    rw [hneg, Real.rpow_neg (by norm_num : (0:ℝ) ≤ 10)]
    have hy' : (10:ℝ) ^ ((a - b) / 400.0) ≠ 0 := ne_of_gt hy
    field_simp
    ring
  refine ⟨fun a b => ⟨key a b, ?_⟩, ?_⟩
  · rw [key a b]
    norm_num
  · unfold get_elo_win_probability
    norm_num [Real.rpow_zero]

/-! ## Claim C10 -/

/-- Claim C10: a single rating update moves a rating by strictly less than
K = 32 in absolute value; a win strictly increases the team's rating and a
loss strictly decreases it. -/
theorem c10_rating_change_bounded (team_elo opponent_elo : ℝ) :
    team_elo < calculate_elo team_elo opponent_elo 1
    ∧ calculate_elo team_elo opponent_elo 0 < team_elo
    ∧ |calculate_elo team_elo opponent_elo 1 - team_elo| < 32
    ∧ |calculate_elo team_elo opponent_elo 0 - team_elo| < 32 := by
  obtain ⟨he0, he1⟩ := expected_prob_bounds ((opponent_elo - team_elo) / 400.0)
  unfold calculate_elo ELO_K
  norm_num only
  constructor
  · nlinarith
  constructor
  · nlinarith
  constructor
  · rw [abs_lt]; constructor <;> nlinarith
  · rw [abs_lt]; constructor <;> nlinarith

end NbaCore

namespace NbaCore

/-! ## Claim C2 (corrected) -/

/-- Claim C2, counterexample: a team whose previous Final game was on the
previous calendar day gets `days_rest = 1` together with
`back_to_back = true`, so the claimed equivalence
`back_to_back = true ↔ rest_days = 0` is false on the code. -/
theorem c2_back_to_back_counterexample :
    is_back_to_back [(⟨1, 0, 1, 2, 100, 90, "Final"⟩ : Game)] 1 1 = true
    ∧ calculate_rest_days [(⟨1, 0, 1, 2, 100, 90, "Final"⟩ : Game)] 1 1
        = some 1
    ∧ ¬(is_back_to_back [(⟨1, 0, 1, 2, 100, 90, "Final"⟩ : Game)] 1 1 = true
        ↔ calculate_rest_days [(⟨1, 0, 1, 2, 100, 90, "Final"⟩ : Game)] 1 1
            = some 0) := by
  decide

/-- Claim C2 as amended: the back_to_back flag is true iff `rest_days = 1`,
i.e. the team's previous Final game is exactly one calendar day earlier
(`rest_days` being the stored day difference to that game); when the team
has no prior Final game, `rest_days` is null and back_to_back is false. -/
theorem c2_back_to_back_iff_rest_one (games : List Game) (team_id : ℕ)
    (game_date : ℤ) :
    (is_back_to_back games team_id game_date = true
      ↔ calculate_rest_days games team_id game_date = some 1)
    ∧ (calculate_rest_days games team_id game_date = none →
        is_back_to_back games team_id game_date = false) := by
  unfold is_back_to_back calculate_rest_days
  cases h : latest_prev_date games team_id game_date with
  | none => simp
  | some prev_date => simp [beq_iff_eq]

/-- Witness for C2's amended theorem at a concrete input: a team with no
prior game has null rest days, and the theorem then yields a false
back-to-back flag. -/
theorem c2_back_to_back_iff_rest_one_witness :
    calculate_rest_days [] 1 0 = none ∧ is_back_to_back [] 1 0 = false :=
  ⟨rfl, (c2_back_to_back_iff_rest_one [] 1 0).2 rfl⟩

/-! ## Claim C3 -/

/-- Claim C3: the rating update computed for each team in each processed
game equals exactly the pinned formula
`new = team + K * (actual - 1/(1 + 10^((opp - team)/400)))` with K = 32,
and a team with no prior snapshot enters the lookup at the initial
rating 1500. -/
theorem c3_elo_update_pinned_formula (team_elo opponent_elo : ℝ) (won : ℕ)
    (stats : List TeamGameStats) (games : List Game) (team_id : ℕ)
    (game_date : ℤ)
    (h : elo_candidates stats games team_id game_date = []) :
    calculate_elo team_elo opponent_elo won
      = elo_update_spec team_elo opponent_elo won
    ∧ ELO_K = 32
    ∧ ELO_INITIAL = 1500
    ∧ get_latest_elo stats games team_id game_date = 1500
    ∧ ∀ (g : Game) (is_home : Bool),
        (game_team_stats stats games g is_home).elo_rating =
          elo_update_spec
            (get_latest_elo stats games
              (if is_home then g.home_team_id else g.away_team_id)
              g.game_date)
            (get_latest_elo stats games
              (if is_home then g.away_team_id else g.home_team_id)
              g.game_date)
            ((game_team_stats stats games g is_home).game_won) := by
  have key : ∀ (t o : ℝ) (w : ℕ),
      calculate_elo t o w = elo_update_spec t o w := by
    intro t o w
    unfold calculate_elo elo_update_spec ELO_K
    norm_num
  refine ⟨key _ _ _, by unfold ELO_K; norm_num,
    by unfold ELO_INITIAL; norm_num, ?_, ?_⟩
  · unfold get_latest_elo
    rw [h]
    unfold ELO_INITIAL
    norm_num
  · intro g is_home
    cases is_home <;>
      simp only [game_team_stats, calculate_team_stats,
        Bool.if_false_right, Bool.if_true_left, if_true, if_false] <;>
      exact key _ _ _

/-- Witness for C3 at a concrete input: an empty snapshot store has no
qualifying row, and the theorem then gives the formula equality and the
1500 default. -/
theorem c3_elo_update_pinned_formula_witness :
    elo_candidates [] [] 1 0 = [] ∧ get_latest_elo [] [] 1 0 = 1500 :=
  ⟨rfl, (c3_elo_update_pinned_formula 1500 1500 1 [] [] 1 0 rfl).2.2.2.1⟩

end NbaCore

namespace NbaCore

/-! ## Claim C4 -/

/-- Claim C4: a call with `numSimulations <= 0` runs zero iterations, so
the statistics block divides by `len([]) = 0` and the call reports an
error to the caller (in Python, an uncaught `ZeroDivisionError`); it never
returns empty or degenerate statistics. -/
theorem c4_rejects_nonpositive_simulations (current_wins current_losses : ℤ)
    (remaining_games : List McGame) (num_simulations : ℤ)
    (team_id : Option ℕ) (draws : ℕ → ℕ → ℚ)
    (h : num_simulations ≤ 0) :
    run_monte_carlo_simulation current_wins current_losses remaining_games
      num_simulations team_id draws
      = Except.error "ZeroDivisionError: division by zero"
    ∧ ∀ r : SimulationResult,
        run_monte_carlo_simulation current_wins current_losses
          remaining_games num_simulations team_id draws ≠ Except.ok r := by
  have hsamples : mc_samples current_wins current_losses remaining_games
      num_simulations team_id draws = [] := by
    unfold mc_samples
    rw [Int.toNat_of_nonpos h]
    rfl
  have herr : run_monte_carlo_simulation current_wins current_losses
      remaining_games num_simulations team_id draws
      = Except.error "ZeroDivisionError: division by zero" := by
    unfold run_monte_carlo_simulation
    rw [hsamples]
    rfl
  exact ⟨herr, fun r hr => by rw [herr] at hr; exact Except.noConfusion hr⟩

/-- Witness for C4 at a concrete input: zero simulations yield the
division-by-zero error. -/
theorem c4_rejects_nonpositive_simulations_witness :
    (0 : ℤ) ≤ 0
    ∧ run_monte_carlo_simulation 40 10 [] 0 none (fun _ _ => 1/2)
        = Except.error "ZeroDivisionError: division by zero" :=
  ⟨by decide,
    (c4_rejects_nonpositive_simulations 40 10 [] 0 none (fun _ _ => 1/2)
      (by decide)).1⟩

/-! ## Claim C7 -/

/-- Claim C7: the stored blended probability is `w1*p + w2*q` clamped to
`[0,1]` with the hard-coded default weights w1 = 0.70, w2 = 0.30 (for
component probabilities in `[0,1]` the clamp is the identity and the
result lies in `[0,1]`); with w1 = 1, w2 = 0 the blend equals the
external probability exactly; and a game index beyond the trained horizon
falls back to the neutral external component 0.5 instead of failing. -/
theorem c7_blend_bounds (p q : ℝ) (hp0 : 0 ≤ p) (hp1 : p ≤ 1)
    (hq0 : 0 ≤ q) (hq1 : q ≤ 1) :
    stored_home_win_prob p q = blend_spec 0.70 0.30 p q
    ∧ stored_home_win_prob p q = 0.70 * p + 0.30 * q
    ∧ 0 ≤ stored_home_win_prob p q
    ∧ stored_home_win_prob p q ≤ 1
    ∧ blend_spec 1 0 p q = p
    ∧ ∀ (lightgbm_probs : List ℝ) (idx : ℕ),
        lightgbm_probs.length ≤ idx →
          lightgbm_prob_for lightgbm_probs idx = 0.5 := by
  have hlo : (0:ℝ) ≤ 0.70 * p + 0.30 * q := by nlinarith
  have hhi : (0.70:ℝ) * p + 0.30 * q ≤ 1 := by nlinarith
  have hstored : stored_home_win_prob p q = 0.70 * p + 0.30 * q := by
    unfold stored_home_win_prob blended_home_prob
    rw [min_eq_right (by nlinarith : (0.70:ℝ) * p + 0.30 * q ≤ 1.0),
      max_eq_right (by nlinarith : (0.0:ℝ) ≤ 0.70 * p + 0.30 * q)]
  refine ⟨?_, hstored, ?_, ?_, ?_, ?_⟩
  · unfold stored_home_win_prob blended_home_prob blend_spec
    norm_num
  · rw [hstored]; exact hlo
  · rw [hstored]; exact hhi
  · unfold blend_spec
    rw [one_mul, zero_mul, add_zero, min_eq_right hp1, max_eq_right hp0]
  · intro lightgbm_probs idx hidx
    unfold lightgbm_prob_for
    rw [if_neg (by omega)]

/-- Witness for C7 at a concrete input: external probability 1 and rating
probability 0 are valid components, and the theorem gives the exact-blend
equality there. -/
theorem c7_blend_bounds_witness :
    ((0:ℝ) ≤ 1 ∧ (1:ℝ) ≤ 1 ∧ (0:ℝ) ≤ 0 ∧ (0:ℝ) ≤ 1)
    ∧ stored_home_win_prob 1 0 = 0.70 * 1 + 0.30 * 0 :=
  ⟨by norm_num,
    (c7_blend_bounds 1 0 (by norm_num) (by norm_num) (by norm_num)
      (by norm_num)).2.1⟩

end NbaCore

namespace NbaCore

/-! ## Claim C6 -/

/-- The projection loop accumulator: starting from `(a, b)`, a slate in
which every remaining game carries a (nonzero) prediction adds the
team-oriented win probability of every game to the first component and the
opponent's win probability to the second. -/
lemma projection_foldl_eq (team_id : ℕ) (l : List RemainingGame)
    (h : ∀ g ∈ l, ∃ pg, g.home_win_prob = some pg ∧ pg ≠ 0) :
    ∀ a b : ℚ, l.foldl (projection_step team_id) (a, b)
      = (a + (l.map fun g =>
            if g.home_team_id == team_id then g.home_win_prob.getD 0
            else 1 - g.home_win_prob.getD 0).sum,
         b + (l.map fun g =>
            if g.home_team_id == team_id then 1 - g.home_win_prob.getD 0
            else g.home_win_prob.getD 0).sum) := by
  induction l with
  | nil => intro a b; simp
  | cons g gs ih =>
    intro a b
    obtain ⟨pg, hpg, hne⟩ := h g (List.mem_cons_self g gs)
    have hstep : projection_step team_id (a, b) g
        = (a + (if g.home_team_id == team_id then g.home_win_prob.getD 0
                else 1 - g.home_win_prob.getD 0),
           b + (if g.home_team_id == team_id then 1 - g.home_win_prob.getD 0
                else g.home_win_prob.getD 0)) := by
      unfold projection_step
      rw [hpg]
      simp only [Option.getD_some, if_neg hne]
    rw [List.foldl_cons, hstep,
      ih (fun x hx => h x (List.mem_cons_of_mem g hx))]
    simp only [List.map_cons, List.sum_cons, Prod.mk.injEq]
    constructor <;> ring

/-- Claim C6: when every remaining game carries a prediction, the applied
strength-of-schedule adjustment is `0.5 / avgOpponentStrength` whenever
the remaining-game count and the average opponent strength are positive,
and 1 otherwise; with an empty remaining slate the adjustment is 1 and the
projected total wins equal the current wins. -/
theorem c6_schedule_adjustment (wins losses : ℤ)
    (remaining_games : List RemainingGame) (team_id : ℕ)
    (h : ∀ g ∈ remaining_games, ∃ pg, g.home_win_prob = some pg ∧ pg ≠ 0) :
    ((project_team wins losses remaining_games team_id).schedule_adjustment
      = if 0 < remaining_games.length
           ∧ 0 < avg_opponent_strength_spec remaining_games team_id
        then 0.5 / avg_opponent_strength_spec remaining_games team_id
        else 1)
    ∧ (remaining_games = [] →
        (project_team wins losses remaining_games team_id).schedule_adjustment
          = 1
        ∧ (project_team wins losses remaining_games team_id).projected_total_wins
          = (wins : ℚ)) := by
  have hfold := projection_foldl_eq team_id remaining_games h 0 0
  constructor
  · simp only [project_team, hfold]
    unfold avg_opponent_strength_spec
    rcases Nat.eq_zero_or_pos remaining_games.length with hlen | hlen
    · simp [hlen]
    · have hlen' : remaining_games.length > 0 := hlen
      by_cases havg : ((remaining_games.map fun g =>
          if g.home_team_id == team_id then 1 - g.home_win_prob.getD 0
          else g.home_win_prob.getD 0).sum) / (remaining_games.length : ℚ)
            > 0
      · simp [hlen', havg, zero_add]
      · simp [hlen', havg, zero_add, not_lt.mp havg]
  · intro hempty
    subst hempty
    simp [project_team]

/-- Witness for C6 at a concrete input: one remaining home game with a
stored prediction of 1/2 satisfies the all-predictions hypothesis, and the
theorem computes the adjustment there. -/
theorem c6_schedule_adjustment_witness :
    (∀ g ∈ [(⟨some (1/2), some (1/2), 7, 8, 11⟩ : RemainingGame)],
      ∃ pg, g.home_win_prob = some pg ∧ pg ≠ 0)
    ∧ (project_team 10 5 [(⟨some (1/2), some (1/2), 7, 8, 11⟩ : RemainingGame)]
        7).schedule_adjustment
      = if 0 < ([(⟨some (1/2), some (1/2), 7, 8, 11⟩ : RemainingGame)]).length
           ∧ 0 < avg_opponent_strength_spec
              [(⟨some (1/2), some (1/2), 7, 8, 11⟩ : RemainingGame)] 7
        then 0.5 / avg_opponent_strength_spec
              [(⟨some (1/2), some (1/2), 7, 8, 11⟩ : RemainingGame)] 7
        else 1 :=
  ⟨fun g hg => by
      rw [List.mem_singleton] at hg
      subst hg
      exact ⟨1/2, rfl, by norm_num⟩,
    (c6_schedule_adjustment 10 5
      [(⟨some (1/2), some (1/2), 7, 8, 11⟩ : RemainingGame)] 7
      (fun g hg => by
        rw [List.mem_singleton] at hg
        subst hg
        exact ⟨1/2, rfl, by norm_num⟩)).1⟩

end NbaCore

namespace NbaCore

/-! ## Claim C1 (corrected) -/

/-- Claim C1, counterexample: with two Final games of team 1 on the same
date (ordinals 1 and 2), the prior-game set the engine computes for the
second game is empty, while the set of final games strictly before it
under the (date, then ordinal) total order contains the first game — the
code compares dates only and drops a same-day game with a smaller
ordinal. -/
theorem c1_same_day_counterexample :
    (get_prev_games [] [(⟨1, 0, 1, 2, 100, 90, "Final"⟩ : Game),
        (⟨2, 0, 1, 3, 80, 95, "Final"⟩ : Game)] 1 0).map
      (fun p => p.game_id) = []
    ∧ (prior_games_lex [(⟨1, 0, 1, 2, 100, 90, "Final"⟩ : Game),
        (⟨2, 0, 1, 3, 80, 95, "Final"⟩ : Game)] 1 0 2).map
      (fun g => g.id) = [1]
    ∧ (get_prev_games [] [(⟨1, 0, 1, 2, 100, 90, "Final"⟩ : Game),
        (⟨2, 0, 1, 3, 80, 95, "Final"⟩ : Game)] 1 0).map
      (fun p => p.game_id)
      ≠ (prior_games_lex [(⟨1, 0, 1, 2, 100, 90, "Final"⟩ : Game),
        (⟨2, 0, 1, 3, 80, 95, "Final"⟩ : Game)] 1 0 2).map
      (fun g => g.id) := by
  decide

/-- Claim C1 as amended: the prior-game set feeding the win-loss record,
rolling aggregates and rest/back-to-back flags contains exactly the Final
games involving the team whose date is strictly earlier than the target
game's date — a same-day game with a smaller ordinal is excluded.  Every
game of that set is still strictly before the target under the
(date, then ordinal) order, so no later (or same-order) information leaks:
the set is contained in the spec's strict lex-prior set for any ordinal,
all snapshot fields other than the post-game rating and the stored outcome
are a function of that date-prior set alone, and the pre-game rating
lookup ignores snapshot rows whose game is not date-prior. -/
theorem c1_prior_games_date_only (stats : List TeamGameStats)
    (games : List Game) (team_id : ℕ) (game_date : ℤ) :
    ((get_prev_games stats games team_id game_date).map (fun p => p.game_id)
      = (games.filter (prior_games_pred team_id game_date)).map
          (fun g => g.id))
    ∧ (∀ ordinal : ℕ,
        (get_prev_games stats games team_id game_date).map
            (fun p => p.game_id)
          ⊆ (prior_games_lex games team_id game_date ordinal).map
            (fun g => g.id))
    ∧ (∀ (g : Game) (is_home : Bool) (games2 : List Game),
        games.filter (prior_games_pred
            (if is_home then g.home_team_id else g.away_team_id) g.game_date)
          = games2.filter (prior_games_pred
            (if is_home then g.home_team_id else g.away_team_id) g.game_date)
        →
        prior_fields (game_team_stats stats games g is_home)
          = prior_fields (game_team_stats stats games2 g is_home))
    ∧ (∀ extra : List TeamGameStats,
        (∀ s ∈ extra, elo_candidate games team_id game_date s = none) →
        get_latest_elo (stats ++ extra) games team_id game_date
          = get_latest_elo stats games team_id game_date) := by
  refine ⟨?_, ?_, ?_, ?_⟩
  · unfold get_prev_games
    rw [List.map_map]
    exact List.map_congr_left fun a _ => rfl
  · intro ordinal x hx
    rw [List.mem_map] at hx
    obtain ⟨p, hp, rfl⟩ := hx
    unfold get_prev_games at hp
    rw [List.mem_map] at hp
    obtain ⟨g, hg, rfl⟩ := hp
    rw [List.mem_filter] at hg
    obtain ⟨hgmem, hgpred⟩ := hg
    unfold prior_games_pred at hgpred
    simp only [Bool.and_eq_true, Bool.or_eq_true, decide_eq_true_eq] at hgpred
    rw [List.mem_map]
    refine ⟨g, ?_, rfl⟩
    unfold prior_games_lex
    rw [List.mem_filter]
    refine ⟨hgmem, ?_⟩
    simp only [Bool.and_eq_true, Bool.or_eq_true, decide_eq_true_eq]
    exact ⟨⟨hgpred.1.1, hgpred.2⟩, Or.inl hgpred.1.2⟩
  · intro g is_home games2 hfil
    have hfields : ∀ (prev : List PrevGame) (gid tid ih gw : ℕ)
        (dr : Option ℤ) (b2b oid : ℕ) (d : ℤ)
        (s1 s2 : List TeamGameStats) (gs1 gs2 : List Game),
        prior_fields (calculate_team_stats gid tid ih prev gw dr b2b oid d
            s1 gs1)
          = prior_fields (calculate_team_stats gid tid ih prev gw dr b2b oid
            d s2 gs2) := by
      intro prev gid tid ih gw dr b2b oid d s1 s2 gs1 gs2
      simp only [calculate_team_stats, prior_fields]
    have hprev : get_prev_games stats games
        (if is_home then g.home_team_id else g.away_team_id) g.game_date
        = get_prev_games stats games2
          (if is_home then g.home_team_id else g.away_team_id) g.game_date := by
      unfold get_prev_games
      rw [hfil]
    have hrest : calculate_rest_days games
        (if is_home then g.home_team_id else g.away_team_id) g.game_date
        = calculate_rest_days games2
          (if is_home then g.home_team_id else g.away_team_id) g.game_date := by
      unfold calculate_rest_days latest_prev_date
      rw [hfil]
    have hb2b : is_back_to_back games
        (if is_home then g.home_team_id else g.away_team_id) g.game_date
        = is_back_to_back games2
          (if is_home then g.home_team_id else g.away_team_id) g.game_date := by
      unfold is_back_to_back latest_prev_date
      rw [hfil]
    cases is_home with
    | true =>
        simp only [if_true] at hprev hrest hb2b
        simp only [game_team_stats, if_true]
        rw [hprev, hrest, hb2b]
        exact hfields _ _ _ _ _ _ _ _ _ _ _ _ _
    | false =>
        simp only [if_false] at hprev hrest hb2b
        simp only [game_team_stats, if_false]
        rw [hprev, hrest, hb2b]
        exact hfields _ _ _ _ _ _ _ _ _ _ _ _ _
  · intro extra hextra
    unfold get_latest_elo elo_candidates
    rw [List.filterMap_append, List.filterMap_eq_nil_iff.mpr hextra,
      List.append_nil]

/-- Witness for C1's amended theorem at concrete inputs: a ledger extension
that leaves the date-prior games unchanged leaves the pre-game snapshot
fields unchanged, and a snapshot row that is not date-prior is invisible
to the rating lookup. -/
theorem c1_prior_games_date_only_witness :
    ([(⟨1, 0, 1, 2, 100, 90, "Final"⟩ : Game)].filter
        (prior_games_pred
          (if true then (⟨2, 1, 1, 3, 80, 95, "Final"⟩ : Game).home_team_id
           else (⟨2, 1, 1, 3, 80, 95, "Final"⟩ : Game).away_team_id)
          (⟨2, 1, 1, 3, 80, 95, "Final"⟩ : Game).game_date)
      = [(⟨1, 0, 1, 2, 100, 90, "Final"⟩ : Game),
          (⟨3, 5, 1, 2, 100, 90, "Final"⟩ : Game)].filter
        (prior_games_pred
          (if true then (⟨2, 1, 1, 3, 80, 95, "Final"⟩ : Game).home_team_id
           else (⟨2, 1, 1, 3, 80, 95, "Final"⟩ : Game).away_team_id)
          (⟨2, 1, 1, 3, 80, 95, "Final"⟩ : Game).game_date))
    ∧ elo_candidate [(⟨1, 0, 1, 2, 100, 90, "Final"⟩ : Game)] 1 1
        (⟨1, 99, 1, 0, 0, 0, 0, 0, 0, 0, none, none, none, none, none, none,
          none, none, none, none, none, none, 1500, none, 0, 0⟩ :
            TeamGameStats) = none
    ∧ prior_fields (game_team_stats []
        [(⟨1, 0, 1, 2, 100, 90, "Final"⟩ : Game)]
        (⟨2, 1, 1, 3, 80, 95, "Final"⟩ : Game) true)
      = prior_fields (game_team_stats []
        [(⟨1, 0, 1, 2, 100, 90, "Final"⟩ : Game),
          (⟨3, 5, 1, 2, 100, 90, "Final"⟩ : Game)]
        (⟨2, 1, 1, 3, 80, 95, "Final"⟩ : Game) true)
    ∧ get_latest_elo ([] ++
        [(⟨1, 99, 1, 0, 0, 0, 0, 0, 0, 0, none, none, none, none, none, none,
          none, none, none, none, none, none, 1500, none, 0, 0⟩ :
            TeamGameStats)])
        [(⟨1, 0, 1, 2, 100, 90, "Final"⟩ : Game)] 1 1
      = get_latest_elo [] [(⟨1, 0, 1, 2, 100, 90, "Final"⟩ : Game)] 1 1 :=
  ⟨by decide, rfl,
    (c1_prior_games_date_only []
      [(⟨1, 0, 1, 2, 100, 90, "Final"⟩ : Game)] 1 1).2.2.1
      (⟨2, 1, 1, 3, 80, 95, "Final"⟩ : Game) true
      [(⟨1, 0, 1, 2, 100, 90, "Final"⟩ : Game),
        (⟨3, 5, 1, 2, 100, 90, "Final"⟩ : Game)] (by decide),
    (c1_prior_games_date_only []
      [(⟨1, 0, 1, 2, 100, 90, "Final"⟩ : Game)] 1 1).2.2.2
      [(⟨1, 99, 1, 0, 0, 0, 0, 0, 0, 0, none, none, none, none, none, none,
        none, none, none, none, none, none, 1500, none, 0, 0⟩ :
          TeamGameStats)]
      (fun s hs => by
        rw [List.mem_singleton] at hs
        subst hs
        rfl)⟩

end NbaCore

namespace NbaCore

/-! ## Monte-Carlo helper lemmas -/

/-- A remaining game is processed (consumes a draw) exactly when it
involves the simulated team. -/
lemma team_win_prob_isSome (team_id : Option ℕ) (g : McGame) :
    (team_win_prob team_id g).isSome = mc_involves team_id g := by
  cases team_id with
  | none => rfl
  | some t =>
      unfold team_win_prob mc_involves
      by_cases h1 : g.home_team_id == t
      · simp [h1]
      · by_cases h2 : g.away_team_id == t <;> simp [h1, h2]

/-- Each simulated season final win total lies between the current wins and
the current wins plus the number of processed (team-involving) games. -/
lemma sim_games_bounds (gs : List McGame) :
    ∀ (team_id : Option ℕ) (draw : ℕ → ℚ) (k : ℕ) (w l : ℤ) (r : List ℕ),
      w ≤ sim_games team_id draw gs k w l r
      ∧ sim_games team_id draw gs k w l r
          ≤ w + ((gs.filter (mc_involves team_id)).length : ℤ) := by
  induction gs with
  | nil => intro team_id draw k w l r; simp [sim_games]
  | cons g rest ih =>
    intro team_id draw k w l r
    cases htw : team_win_prob team_id g with
    | none =>
        have hinv : mc_involves team_id g = false := by
          rw [← team_win_prob_isSome, htw]; rfl
        obtain ⟨ihl, ihu⟩ := ih team_id draw k w l r
        simp only [sim_games, htw]
        refine ⟨ihl, ?_⟩
        simpa [List.filter_cons, hinv] using ihu
    | some p =>
        have hinv : mc_involves team_id g = true := by
          rw [← team_win_prob_isSome, htw]; rfl
        have hcount : (((g :: rest).filter (mc_involves team_id)).length : ℤ)
            = ((rest.filter (mc_involves team_id)).length : ℤ) + 1 := by
          simp [List.filter_cons, hinv]
        simp only [sim_games, htw]
        split
        · obtain ⟨ihl, ihu⟩ := ih team_id draw (k + 1) (w + 1) l
            (push_recent r 1)
          refine ⟨by linarith, ?_⟩
          rw [hcount]; linarith
        · obtain ⟨ihl, ihu⟩ := ih team_id draw (k + 1) w (l + 1)
            (push_recent r 0)
          refine ⟨ihl, ?_⟩
          rw [hcount]; linarith

/-- The sorted sample list has one entry per requested simulation. -/
lemma sorted_samples_length (current_wins current_losses : ℤ)
    (remaining_games : List McGame) (num_simulations : ℤ)
    (team_id : Option ℕ) (draws : ℕ → ℕ → ℚ) :
    ((mc_samples current_wins current_losses remaining_games num_simulations
      team_id draws).insertionSort (· ≤ ·)).length
      = num_simulations.toNat := by
  rw [(List.perm_insertionSort (· ≤ ·) _).length_eq]
  unfold mc_samples
  rw [List.length_map, List.length_range]

/-- With at least one simulation the run returns the statistics of the
sorted sample list. -/
lemma run_mc_eq_ok (current_wins current_losses : ℤ)
    (remaining_games : List McGame) (num_simulations : ℤ)
    (team_id : Option ℕ) (draws : ℕ → ℕ → ℚ)
    (hn : 1 ≤ num_simulations) :
    run_monte_carlo_simulation current_wins current_losses remaining_games
      num_simulations team_id draws
      = Except.ok (mc_result
          ((mc_samples current_wins current_losses remaining_games
            num_simulations team_id draws).insertionSort (· ≤ ·))) := by
  have hlen := sorted_samples_length current_wins current_losses
    remaining_games num_simulations team_id draws
  have hne : ¬ ((mc_samples current_wins current_losses remaining_games
      num_simulations team_id draws).insertionSort (· ≤ ·)).length = 0 := by
    rw [hlen]; omega
  unfold run_monte_carlo_simulation
  rw [if_neg hne]

/-- An in-range `getD` is a member of the list. -/
lemma getD_mem_of_lt (l : List ℤ) (i : ℕ) (h : i < l.length) :
    l.getD i 0 ∈ l := by
  rw [List.getD_eq_getElem l 0 h]
  exact List.getElem_mem h

/-- Elementwise bounds on a list of integers bound its sum. -/
lemma list_sum_bounds (l : List ℤ) (a b : ℤ)
    (h : ∀ x ∈ l, a ≤ x ∧ x ≤ b) :
    (l.length : ℤ) * a ≤ l.sum ∧ l.sum ≤ (l.length : ℤ) * b := by
  induction l with
  | nil => simp
  | cons y ys ih =>
    obtain ⟨hy1, hy2⟩ := h y (List.mem_cons_self y ys)
    obtain ⟨ih1, ih2⟩ := ih fun x hx => h x (List.mem_cons_of_mem y hx)
    simp only [List.length_cons, List.sum_cons]
    push_cast
    constructor <;> linarith

/-- The spec's nearest-rank index ⌊N * 0.10⌋ is `N / 10`. -/
lemma spec_p10_index_eq (m : ℕ) : spec_p10_index m = m / 10 := by
  unfold spec_p10_index
  have h : ((m : ℚ) * 0.10) = (m : ℚ) / ((10:ℕ) : ℚ) := by push_cast; ring
  rw [h, Nat.floor_div_nat, Nat.floor_natCast]

/-- The spec's nearest-rank index ⌊N * 0.90⌋ is `9 * N / 10`. -/
lemma spec_p90_index_eq (m : ℕ) : spec_p90_index m = 9 * m / 10 := by
  unfold spec_p90_index
  have h : ((m : ℚ) * 0.90) = ((9 * m : ℕ) : ℚ) / ((10:ℕ) : ℚ) := by
    push_cast; ring
  rw [h, Nat.floor_div_nat, Nat.floor_natCast]

/-! ## Claim C5 -/

/-- Claim C5: with at least one simulation the returned summary statistics
are computed from the sorted list of final win totals exactly as the spec
pins them — arithmetic mean, the element at sorted index N/2 (integer
division), the population standard deviation (divide by N), and the
nearest-rank elements at sorted indices ⌊N·0.10⌋ and ⌊N·0.90⌋. -/
theorem c5_summary_statistics (current_wins current_losses : ℤ)
    (remaining_games : List McGame) (num_simulations : ℤ)
    (team_id : Option ℕ) (draws : ℕ → ℕ → ℚ)
    (hn : 1 ≤ num_simulations) :
    ∃ r : SimulationResult,
      run_monte_carlo_simulation current_wins current_losses remaining_games
        num_simulations team_id draws = Except.ok r
      ∧ r.distribution = (mc_samples current_wins current_losses
          remaining_games num_simulations team_id draws).insertionSort (· ≤ ·)
      ∧ r.mean_wins = spec_mean r.distribution
      ∧ r.median_wins = spec_median r.distribution
      ∧ r.std_dev = spec_std_dev r.distribution
      ∧ r.percentile_10
          = r.distribution.getD (spec_p10_index r.distribution.length) 0
      ∧ r.percentile_90
          = r.distribution.getD (spec_p90_index r.distribution.length) 0 := by
  refine ⟨mc_result ((mc_samples current_wins current_losses remaining_games
      num_simulations team_id draws).insertionSort (· ≤ ·)),
    run_mc_eq_ok current_wins current_losses remaining_games num_simulations
      team_id draws hn, rfl, rfl, rfl, rfl, ?_, ?_⟩
  · rw [spec_p10_index_eq]
    rfl
  · rw [spec_p90_index_eq]
    rfl

/-- Witness for C5 at a concrete input: one simulation is at least one, and
the theorem yields the statistics equalities there. -/
theorem c5_summary_statistics_witness :
    (1 : ℤ) ≤ 1
    ∧ ∃ r : SimulationResult,
        run_monte_carlo_simulation 40 10 [] 1 none (fun _ _ => 1/2)
          = Except.ok r
        ∧ r.distribution
            = (mc_samples 40 10 [] 1 none (fun _ _ => 1/2)).insertionSort
              (· ≤ ·)
        ∧ r.mean_wins = spec_mean r.distribution
        ∧ r.median_wins = spec_median r.distribution
        ∧ r.std_dev = spec_std_dev r.distribution
        ∧ r.percentile_10
            = r.distribution.getD (spec_p10_index r.distribution.length) 0
        ∧ r.percentile_90
            = r.distribution.getD (spec_p90_index r.distribution.length) 0 :=
  ⟨by decide,
    c5_summary_statistics 40 10 [] 1 none (fun _ _ => 1/2) (by decide)⟩

end NbaCore

namespace NbaCore

/-! ## Claim C9 -/

/-- Claim C9: with at least one simulation the returned distribution is
sorted ascending, has exactly `numSimulations` entries, and every sample —
hence also the median, both percentiles, and the mean — lies between the
current wins and the current wins plus the number of remaining games
involving the simulated team (all remaining games when `team_id` is
`None`). -/
theorem c9_distribution_bounds (current_wins current_losses : ℤ)
    (remaining_games : List McGame) (num_simulations : ℤ)
    (team_id : Option ℕ) (draws : ℕ → ℕ → ℚ)
    (hn : 1 ≤ num_simulations) :
    ∃ r : SimulationResult,
      run_monte_carlo_simulation current_wins current_losses remaining_games
        num_simulations team_id draws = Except.ok r
      ∧ List.Sorted (· ≤ ·) r.distribution
      ∧ (r.distribution.length : ℤ) = num_simulations
      ∧ (∀ x ∈ r.distribution, current_wins ≤ x
          ∧ x ≤ current_wins
              + ((remaining_games.filter (mc_involves team_id)).length : ℤ))
      ∧ (current_wins ≤ r.median_wins
          ∧ r.median_wins ≤ current_wins
              + ((remaining_games.filter (mc_involves team_id)).length : ℤ))
      ∧ (current_wins ≤ r.percentile_10
          ∧ r.percentile_10 ≤ current_wins
              + ((remaining_games.filter (mc_involves team_id)).length : ℤ))
      ∧ (current_wins ≤ r.percentile_90
          ∧ r.percentile_90 ≤ current_wins
              + ((remaining_games.filter (mc_involves team_id)).length : ℤ))
      ∧ ((current_wins : ℚ) ≤ r.mean_wins
          ∧ r.mean_wins ≤ ((current_wins
              + ((remaining_games.filter (mc_involves team_id)).length : ℤ)
                : ℤ) : ℚ)) := by
  have hlen := sorted_samples_length current_wins current_losses
    remaining_games num_simulations team_id draws
  have hlenpos : 0 < ((mc_samples current_wins current_losses remaining_games
      num_simulations team_id draws).insertionSort (· ≤ ·)).length := by
    rw [hlen]; omega
  have hbound : ∀ x ∈ (mc_samples current_wins current_losses remaining_games
      num_simulations team_id draws).insertionSort (· ≤ ·),
      current_wins ≤ x ∧ x ≤ current_wins
        + ((remaining_games.filter (mc_involves team_id)).length : ℤ) := by
    intro x hx
    have hx' : x ∈ mc_samples current_wins current_losses remaining_games
        num_simulations team_id draws :=
      (List.perm_insertionSort (· ≤ ·) _).mem_iff.mp hx
    unfold mc_samples at hx'
    rw [List.mem_map] at hx'
    obtain ⟨i, _, rfl⟩ := hx'
    exact sim_games_bounds remaining_games team_id (draws i) 0
      current_wins current_losses []
  refine ⟨mc_result ((mc_samples current_wins current_losses remaining_games
      num_simulations team_id draws).insertionSort (· ≤ ·)),
    run_mc_eq_ok current_wins current_losses remaining_games num_simulations
      team_id draws hn,
    List.sorted_insertionSort (· ≤ ·) _, ?_, hbound,
    ?_, ?_, ?_, ?_⟩
  · show (((mc_samples current_wins current_losses remaining_games
        num_simulations team_id draws).insertionSort (· ≤ ·)).length : ℤ)
      = num_simulations
    rw [hlen]; omega
  · exact hbound _ (getD_mem_of_lt _ _ (Nat.div_lt_self hlenpos one_lt_two))
  · exact hbound _ (getD_mem_of_lt _ _ (Nat.div_lt_self hlenpos
      (by norm_num)))
  · refine hbound _ (getD_mem_of_lt _ _ ?_)
    rw [Nat.div_lt_iff_lt_mul (by norm_num : 0 < 10)]
    omega
  · have hsum := list_sum_bounds _ current_wins (current_wins
      + ((remaining_games.filter (mc_involves team_id)).length : ℤ)) hbound
    have hpos : (0:ℚ) < (((mc_samples current_wins current_losses
        remaining_games num_simulations team_id draws).insertionSort
        (· ≤ ·)).length : ℚ) := by
      exact_mod_cast hlenpos
    have hmean : (mc_result ((mc_samples current_wins current_losses
        remaining_games num_simulations team_id draws).insertionSort
        (· ≤ ·))).mean_wins
        = (((mc_samples current_wins current_losses remaining_games
            num_simulations team_id draws).insertionSort (· ≤ ·)).sum : ℚ)
          / (((mc_samples current_wins current_losses remaining_games
            num_simulations team_id draws).insertionSort (· ≤ ·)).length : ℚ)
        := rfl
    rw [hmean]
    obtain ⟨hs1, hs2⟩ := hsum
    constructor
    · rw [le_div_iff₀ hpos, mul_comm]
      exact_mod_cast hs1
    · rw [div_le_iff₀ hpos, mul_comm]
      exact_mod_cast hs2

/-- Witness for C9 at a concrete input: one simulation of an empty slate
is a valid call, and the theorem yields the distribution invariants
there. -/
theorem c9_distribution_bounds_witness :
    (1 : ℤ) ≤ 1
    ∧ ∃ r : SimulationResult,
        run_monte_carlo_simulation 40 10 [] 1 none (fun _ _ => 1/2)
          = Except.ok r
        ∧ List.Sorted (· ≤ ·) r.distribution
        ∧ (r.distribution.length : ℤ) = 1
        ∧ (∀ x ∈ r.distribution, 40 ≤ x
            ∧ x ≤ 40 + ((([] : List McGame).filter (mc_involves none)).length
                : ℤ))
        ∧ (40 ≤ r.median_wins
            ∧ r.median_wins ≤ 40
                + ((([] : List McGame).filter (mc_involves none)).length : ℤ))
        ∧ (40 ≤ r.percentile_10
            ∧ r.percentile_10 ≤ 40
                + ((([] : List McGame).filter (mc_involves none)).length : ℤ))
        ∧ (40 ≤ r.percentile_90
            ∧ r.percentile_90 ≤ 40
                + ((([] : List McGame).filter (mc_involves none)).length : ℤ))
        ∧ (((40 : ℤ) : ℚ) ≤ r.mean_wins
            ∧ r.mean_wins ≤ (((40 : ℤ)
                + ((([] : List McGame).filter (mc_involves none)).length : ℤ)
                  : ℤ) : ℚ)) :=
  ⟨by decide,
    c9_distribution_bounds 40 10 [] 1 none (fun _ _ => 1/2) (by decide)⟩

end NbaCore
